import Mathlib

/-!
Verification development for the macro-resolution pipeline of
`mcp_atlassian.preprocessing` (`base.py` and `confluence.py`).

The markup tree handed to the pipeline by the parsing collaborator
(BeautifulSoup) is modelled by a pair of mutual inductive types:
an element node carries its tag name, its attribute list and its
children; a text node carries its string.  The tree queries the code
uses (`find`, `find_all`, `get`, `get_text(strip=True)`, `find_parent`)
are modelled as pure functions over this tree, with document order
being preorder, exactly as BeautifulSoup reports matches.  `replace_with`
is modelled by the rewriting passes returning the replacement node.
Python truthiness of optional strings (`None` and `""` are falsy) is
modelled by `pyTruthyO`; a found tag object is always truthy in
BeautifulSoup (its `__bool__` is constantly `True`), so `if not x:` on
the result of `find` is modelled as a `none` test.
-/

mutual

inductive Node where
  | text : String → Node
  | elem : (tag : String) → (attrs : List (String × String)) → (children : NodeList) → Node

inductive NodeList where
  | nil : NodeList
  | cons : Node → NodeList → NodeList

end

/-- Attribute lookup, as `tag.get(key)`: first binding of the key. -/
def getAttr (a : List (String × String)) (k : String) : Option String :=
  (a.find? (fun p => p.1 == k)).map (fun p => p.2)

/-- Attribute list of a node (a text node has none). -/
def attrsOf : Node → List (String × String)
  | .text _ => []
  | .elem _ a _ => a

/-- Python truthiness of an optional string: `None` and `""` are falsy. -/
def pyTruthyO : Option String → Bool
  | some s => !(s == "")
  | none => false

/-- Python `a or b` on optional strings. -/
def pyOrO (a b : Option String) : Option String :=
  if pyTruthyO a then a else b

/-- Does this node match a tag name (as in `find(tag)`)? -/
def isTag (tag : String) : Node → Bool
  | .text _ => false
  | .elem t _ _ => t == tag

/-- Does this node match a tag name and an exact attribute value
(as in `find(tag, attrs={k: v})`)? -/
def matchTagAttr (tag k v : String) : Node → Bool
  | .text _ => false
  | .elem t a _ => t == tag && (getAttr a k == some v)

mutual

/-- `node.find(tag)`: first matching descendant in document (pre)order;
the node itself is not considered. -/
def findTagN (tag : String) : Node → Option Node
  | .text _ => none
  | .elem _ _ ks => findTagL tag ks

/-- `find` over a list of sibling subtrees. -/
def findTagL (tag : String) : NodeList → Option Node
  | .nil => none
  | .cons n l =>
    if isTag tag n then some n
    else
      match findTagN tag n with
      | some r => some r
      | none => findTagL tag l

end

mutual

/-- `node.find(tag, attrs={k: v})` over descendants. -/
def findTagAttrN (tag k v : String) : Node → Option Node
  | .text _ => none
  | .elem _ _ ks => findTagAttrL tag k v ks

/-- `find(tag, attrs={k: v})` over a list of sibling subtrees. -/
def findTagAttrL (tag k v : String) : NodeList → Option Node
  | .nil => none
  | .cons n l =>
    if matchTagAttr tag k v n then some n
    else
      match findTagAttrN tag k v n with
      | some r => some r
      | none => findTagAttrL tag k v l

end

mutual

/-- `node.find_all(tag)`: all matching descendants in document order. -/
def findAllTagN (tag : String) : Node → List Node
  | .text _ => []
  | .elem _ _ ks => findAllTagL tag ks

/-- `find_all(tag)` over a list of sibling subtrees. -/
def findAllTagL (tag : String) : NodeList → List Node
  | .nil => []
  | .cons n l =>
    (if isTag tag n then [n] else []) ++ findAllTagN tag n ++ findAllTagL tag l

end

/-- Python `str.strip()` whitespace (ASCII subset used by the code). -/
def isPyWsChar (c : Char) : Bool :=
  c == ' ' || c == '\t' || c == '\n' || c == '\r' || c == '\x0b' || c == '\x0c'

/-- Python `s.strip()`. -/
def pyStrip (s : String) : String :=
  ⟨((s.data.dropWhile isPyWsChar).reverse.dropWhile isPyWsChar).reverse⟩

mutual

/-- `tag.get_text(strip=True)`: each text descendant stripped, concatenated. -/
def textOfStrip : Node → String
  | .text s => pyStrip s
  | .elem _ _ ks => textOfStripL ks

/-- `get_text(strip=True)` over a list of sibling subtrees. -/
def textOfStripL : NodeList → String
  | .nil => ""
  | .cons n l => textOfStrip n ++ textOfStripL l

end

/-! ## URL builder (`_construct_attachment_download_url`) -/

/-- Bytes kept verbatim by `urllib.parse.quote(s)` with the default
`safe='/'`: ASCII letters, digits, `_ . - ~` and `/`. -/
def isSafeByte (b : Nat) : Bool :=
  (65 ≤ b && b ≤ 90) || (97 ≤ b && b ≤ 122) || (48 ≤ b && b ≤ 57) ||
    b == 45 || b == 46 || b == 95 || b == 126 || b == 47

/-- Uppercase hexadecimal digit, as produced by `urllib.parse.quote`. -/
def hexDigitChar (n : Nat) : Char :=
  if n < 10 then Char.ofNat (48 + n) else Char.ofNat (55 + n)

/-- UTF-8 encoding of one character, as Python encodes a `str` before
percent-escaping. -/
def utf8Bytes (c : Char) : List Nat :=
  let n := c.toNat
  if n < 128 then [n]
  else if n < 2048 then [192 + n / 64, 128 + n % 64]
  else if n < 65536 then [224 + n / 4096, 128 + (n / 64) % 64, 128 + n % 64]
  else [240 + n / 262144, 128 + (n / 4096) % 64, 128 + (n / 64) % 64, 128 + n % 64]

/-- Percent-escaping of one byte: kept if safe, else `%XX` (uppercase). -/
def quoteByte (b : Nat) : List Char :=
  if isSafeByte b then [Char.ofNat b]
  else ['%', hexDigitChar (b / 16), hexDigitChar (b % 16)]

/-- Escaping of one character of the input string. -/
def pyQuoteChar (c : Char) : List Char :=
  (utf8Bytes c).flatMap quoteByte

/-- `urllib.parse.quote(s)` with the default `safe='/'`. -/
def pyQuote (s : String) : String :=
  ⟨s.data.flatMap pyQuoteChar⟩

/-- `BasePreprocessor._construct_attachment_download_url`. -/
def construct_attachment_download_url (base_url page_id filename : String) : String :=
  base_url ++ "/download/attachments/" ++ page_id ++ "/" ++ pyQuote filename

/-! ## Identity resolver (the `ConfluenceClient` protocol)

Each lookup either raises (modelled `Except.error ()`) or returns a user
record, of which the code only reads the optional `displayName` entry
(modelled as the `Option String` payload). -/

structure ConfluenceClient where
  get_user_details_by_accountid : String → Except Unit (Option String)
  get_user_details_by_username : String → Except Unit (Option String)

/-! ## User mention rewriting (`_process_user_mentions_in_soup`,
`_replace_user_mention`, `_use_fallback_user_mention`) -/

/-- `_replace_user_mention` followed by `_use_fallback_user_mention`:
the text that replaces a matched mention link.  The resolver call is
wrapped in `try/except`; an absent client, a raising call, and a missing
or empty display name all produce the same fallback text. -/
def replaceUserMentionText (cl : Option ConfluenceClient) (account_id : String) : String :=
  match cl with
  | some c =>
    match c.get_user_details_by_accountid account_id with
    | .ok det =>
      let display_name := det.getD ""
      if display_name ≠ "" then "@" ++ display_name
      else "@user_" ++ account_id
    | .error _ => "@user_" ++ account_id
  | none => "@user_" ++ account_id

/-- The mention selector of `_process_user_mentions_in_soup` on one
`ac:link` element's children: case 1 takes the first `ri:user`
descendant when it has a truthy `ri:account-id`; case 2 additionally
requires an `ac:link-body` whose text contains `@`, then re-checks the
same first `ri:user`. -/
def mentionSel (ks : NodeList) : Option String :=
  let case2 : Option String :=
    match findTagL "ac:link-body" ks with
    | some lb =>
      if (textOfStrip lb).contains '@' then
        match findTagL "ri:user" ks with
        | some u =>
          match getAttr (attrsOf u) "ri:account-id" with
          | some v => if v ≠ "" then some v else none
          | none => none
        | none => none
      else none
    | none => none
  match findTagL "ri:user" ks with
  | some u =>
    match getAttr (attrsOf u) "ri:account-id" with
    | some v => if v ≠ "" then some v else case2
    | none => case2
  | none => case2

mutual

/-- The user mention pass: every `ac:link` found by `find_all` whose
selector matches is replaced with the mention text; matches nested in a
replaced subtree are detached and invisible, so the pass does not recurse
into replacements. -/
def mentionNode (cl : Option ConfluenceClient) : Node → Node
  | .text s => .text s
  | .elem t a ks =>
    if t == "ac:link" then
      match mentionSel ks with
      | some aid => .text (replaceUserMentionText cl aid)
      | none => .elem t a (mentionList cl ks)
    else .elem t a (mentionList cl ks)

/-- Mention pass over a list of sibling subtrees. -/
def mentionList (cl : Option ConfluenceClient) : NodeList → NodeList
  | .nil => .nil
  | .cons n l => .cons (mentionNode cl n) (mentionList cl l)

end

/-! ## Profile macro rewriting (`_process_user_profile_macros_in_soup`) -/

/-- The replacement text for one profile macro, computed from its
children: malformed placeholders when the `user` parameter or its
embedded `ri:user` is missing; otherwise resolve by account id if truthy,
else by userkey if truthy, falling back to `[User Profile: <identifier>]`
when no display name is obtained. -/
def profileRewriteText (cl : Option ConfluenceClient) (ks : NodeList) : String :=
  match findTagAttrL "ac:parameter" "ac:name" "user" ks with
  | none => "[User Profile Macro (Malformed)]"
  | some user_param =>
    match findTagN "ri:user" user_param with
    | none => "[User Profile Macro (Malformed)]"
    | some user_ref =>
      let account_id := getAttr (attrsOf user_ref) "ri:account-id"
      let userkey := getAttr (attrsOf user_ref) "ri:userkey"
      let ident := pyOrO account_id userkey
      let display_name : Option String :=
        match cl with
        | some c =>
          if pyTruthyO ident then
            if pyTruthyO account_id then
              match c.get_user_details_by_accountid (account_id.getD "") with
              | .ok det => det
              | .error _ => none
            else if pyTruthyO userkey then
              match c.get_user_details_by_username (userkey.getD "") with
              | .ok det => det
              | .error _ => none
            else none
          else none
        | none => none
      if pyTruthyO display_name then "@" ++ display_name.getD ""
      else
        "[User Profile: " ++
          (if pyTruthyO ident then ident.getD "" else "unknown_user") ++ "]"

mutual

/-- The profile macro pass: every `ac:structured-macro` with
`ac:name="profile"` is unconditionally replaced with text. -/
def profileNode (cl : Option ConfluenceClient) : Node → Node
  | .text s => .text s
  | .elem t a ks =>
    if t == "ac:structured-macro" && (getAttr a "ac:name" == some "profile") then
      .text (profileRewriteText cl ks)
    else .elem t a (profileList cl ks)

/-- Profile pass over a list of sibling subtrees. -/
def profileList (cl : Option ConfluenceClient) : NodeList → NodeList
  | .nil => .nil
  | .cons n l => .cons (profileNode cl n) (profileList cl l)

end


/-! ## Inline attachment rewriting (`_process_inline_attachments_in_soup`) -/

/-- Shared selector of the image and link-wrap passes: the first
`ri:attachment` descendant's `ri:filename`, when truthy; `none` when the
reference or the filename is missing (the macro is then skipped). -/
def firstAttachmentFilename (ks : NodeList) : Option String :=
  match findTagL "ri:attachment" ks with
  | some r =>
    match getAttr (attrsOf r) "ri:filename" with
    | some fn => if fn ≠ "" then some fn else none
    | none => none
  | none => none

/-- Is this parameter named `alt`, `title` or `caption`? -/
def nameMatches (p : Node) : Bool :=
  match getAttr (attrsOf p) "ac:name" with
  | some s => s == "alt" || s == "title" || s == "caption"
  | none => false

/-- The alt-text loop of `_process_ac_image_macros`: starting from `""`,
take the text of the first matching parameter and break. -/
def altLoop : List Node → String
  | [] => ""
  | p :: rest => if nameMatches p then textOfStrip p else altLoop rest

/-- The `<img>` element built for a matched image macro. -/
def mkImg (base_url page_id fn : String) (ks : NodeList) : Node :=
  let alt_text := altLoop (findAllTagL "ac:parameter" ks)
  let download_url := construct_attachment_download_url base_url page_id fn
  if alt_text ≠ "" then
    .elem "img" [("src", download_url), ("alt", alt_text)] .nil
  else
    .elem "img" [("src", download_url), ("alt", fn)] .nil

mutual

/-- Pass (a), `_process_ac_image_macros`: a matched `ac:image` is
replaced with an `<img>`; a skipped one is kept (and nested matches are
still visited, as `find_all` collected them). -/
def imageNode (page_id base_url : String) : Node → Node
  | .text s => .text s
  | .elem t a ks =>
    if t == "ac:image" then
      match firstAttachmentFilename ks with
      | some fn => mkImg base_url page_id fn ks
      | none => .elem t a (imageList page_id base_url ks)
    else .elem t a (imageList page_id base_url ks)

/-- Image pass over a list of sibling subtrees. -/
def imageList (page_id base_url : String) : NodeList → NodeList
  | .nil => .nil
  | .cons n l => .cons (imageNode page_id base_url n) (imageList page_id base_url l)

end

mutual

/-- Pass (b), `_process_ri_attachment_macros`: a `ri:attachment` with a
truthy filename is replaced with a link, unless `find_parent` finds an
`ac:image` or `ac:link` ancestor; the two flags record whether such an
ancestor has been traversed. -/
def bareNode (page_id base_url : String) (inImg inLink : Bool) : Node → Node
  | .text s => .text s
  | .elem t a ks =>
    let inImg' := inImg || t == "ac:image"
    let inLink' := inLink || t == "ac:link"
    if t == "ri:attachment" && pyTruthyO (getAttr a "ri:filename") &&
        !inImg && !inLink then
      let fn := (getAttr a "ri:filename").getD ""
      .elem "a" [("href", construct_attachment_download_url base_url page_id fn)]
        (.cons (.text fn) .nil)
    else .elem t a (bareList page_id base_url inImg' inLink' ks)

/-- Bare-reference pass over a list of sibling subtrees. -/
def bareList (page_id base_url : String) (inImg inLink : Bool) : NodeList → NodeList
  | .nil => .nil
  | .cons n l =>
    .cons (bareNode page_id base_url inImg inLink n)
      (bareList page_id base_url inImg inLink l)

end

mutual

/-- Pass (c), `_process_ac_link_attachment_macros`: an `ac:link` whose
first `ri:attachment` has a truthy filename is replaced with a link whose
text comes from `ac:link-body` when present, else the filename. -/
def linkNode (page_id base_url : String) : Node → Node
  | .text s => .text s
  | .elem t a ks =>
    if t == "ac:link" then
      match firstAttachmentFilename ks with
      | some fn =>
        let link_text :=
          match findTagL "ac:link-body" ks with
          | some lb => textOfStrip lb
          | none => fn
        .elem "a" [("href", construct_attachment_download_url base_url page_id fn)]
          (.cons (.text link_text) .nil)
      | none => .elem t a (linkList page_id base_url ks)
    else .elem t a (linkList page_id base_url ks)

/-- Link-wrap pass over a list of sibling subtrees. -/
def linkList (page_id base_url : String) : NodeList → NodeList
  | .nil => .nil
  | .cons n l => .cons (linkNode page_id base_url n) (linkList page_id base_url l)

end

/-! ## Pipeline orchestration (`process_html_content`) -/

/-- The tree-level part of `BasePreprocessor.process_html_content`:
mention pass, profile pass, then — only when the inline-attachments flag
is set and both a client and a truthy page id are supplied — the three
attachment passes in their fixed order. -/
def processSoup (cl : Option ConfluenceClient) (page_id : Option String)
    (preserve_inline_attachments : Bool) (base_url : String)
    (doc : NodeList) : NodeList :=
  let d := profileList cl (mentionList cl doc)
  if preserve_inline_attachments && cl.isSome && pyTruthyO page_id then
    let pid := page_id.getD ""
    linkList pid base_url
      (bareList pid base_url false false (imageList pid base_url d))
  else d

/-- `BasePreprocessor.process_html_content`: parse, rewrite, serialize,
convert to Markdown.  Parsing, serialization and Markdown conversion are
external collaborators that may fail; a failure there is re-raised after
logging, while the rewriting in between is total. -/
def process_html_content
    (parse : String → Except String NodeList)
    (render : NodeList → Except String String)
    (toMarkdown : String → Except String String)
    (cl : Option ConfluenceClient) (page_id : Option String)
    (preserve_inline_attachments : Bool) (base_url : String)
    (html_content : String) : Except String (String × String) :=
  match parse html_content with
  | .error e => .error e
  | .ok soup =>
    let soup := processSoup cl page_id preserve_inline_attachments base_url soup
    match render soup with
    | .error e => .error e
    | .ok processed_html =>
      match toMarkdown processed_html with
      | .error e => .error e
      | .ok processed_markdown => .ok (processed_html, processed_markdown)

/-! ## Constructors (`BasePreprocessor.__init__`,
`ConfluencePreprocessor`) -/

/-- Python `s.rstrip("/")`: remove every trailing slash. -/
def rstripSlashes (s : String) : String :=
  ⟨(s.data.reverse.dropWhile (· == '/')).reverse⟩

/-- `BasePreprocessor.__init__`: the stored base URL,
`base_url.rstrip("/") if base_url else ""`. -/
def basePreprocessorInit (base_url : String) : String :=
  if base_url ≠ "" then rstripSlashes base_url else ""

/-- The state of a `ConfluencePreprocessor`. -/
structure ConfluencePreprocessorS where
  base_url : String
  preserve_inline_attachments : Bool
  proxy_host : Option String
  proxy_port : Option Int
  proxy_base_path : Option String

/-- `ConfluencePreprocessor.__init__`: stores the constructor arguments,
with the base URL normalized by `BasePreprocessor.__init__`. -/
def mkConfluencePreprocessor (base_url : String)
    (preserve_inline_attachments : Bool) (proxy_host : Option String)
    (proxy_port : Option Int) (proxy_base_path : Option String) :
    ConfluencePreprocessorS :=
  { base_url := basePreprocessorInit base_url
    preserve_inline_attachments := preserve_inline_attachments
    proxy_host := proxy_host
    proxy_port := proxy_port
    proxy_base_path := proxy_base_path }

/-- `ConfluencePreprocessor.process_html_content`: when the
`preserve_inline_attachments` argument is `None` the instance setting is
used, else the argument; then the base pipeline runs with that flag. -/
def confluenceProcessHtmlContent (p : ConfluencePreprocessorS)
    (parse : String → Except String NodeList)
    (render : NodeList → Except String String)
    (toMarkdown : String → Except String String)
    (cl : Option ConfluenceClient) (page_id : Option String)
    (preserveArg : Option Bool) (html_content : String) :
    Except String (String × String) :=
  let preserve_inline_attachments :=
    match preserveArg with
    | none => p.preserve_inline_attachments
    | some b => b
  process_html_content parse render toMarkdown cl page_id
    preserve_inline_attachments p.base_url html_content

/-! ## Rewritability predicates

`xxxFree` holds when the corresponding pass finds nothing to rewrite in
the (sub)tree; for the bare-reference pass the two flags describe the
`ac:image` / `ac:link` ancestors above the subtree, as in `find_parent`. -/

mutual

def mentionFreeN : Node → Bool
  | .text _ => true
  | .elem t _ ks => !(t == "ac:link" && (mentionSel ks).isSome) && mentionFreeL ks

def mentionFreeL : NodeList → Bool
  | .nil => true
  | .cons n l => mentionFreeN n && mentionFreeL l

end

mutual

def profileFreeN : Node → Bool
  | .text _ => true
  | .elem t a ks =>
    !(t == "ac:structured-macro" && (getAttr a "ac:name" == some "profile")) &&
      profileFreeL ks

def profileFreeL : NodeList → Bool
  | .nil => true
  | .cons n l => profileFreeN n && profileFreeL l

end

mutual

def imageFreeN : Node → Bool
  | .text _ => true
  | .elem t _ ks =>
    !(t == "ac:image" && (firstAttachmentFilename ks).isSome) && imageFreeL ks

def imageFreeL : NodeList → Bool
  | .nil => true
  | .cons n l => imageFreeN n && imageFreeL l

end

mutual

def linkFreeN : Node → Bool
  | .text _ => true
  | .elem t _ ks =>
    !(t == "ac:link" && (firstAttachmentFilename ks).isSome) && linkFreeL ks

def linkFreeL : NodeList → Bool
  | .nil => true
  | .cons n l => linkFreeN n && linkFreeL l

end

mutual

def bareFreeN (inImg inLink : Bool) : Node → Bool
  | .text _ => true
  | .elem t a ks =>
    !(t == "ri:attachment" && pyTruthyO (getAttr a "ri:filename") &&
        !inImg && !inLink) &&
      bareFreeL (inImg || t == "ac:image") (inLink || t == "ac:link") ks

def bareFreeL (inImg inLink : Bool) : NodeList → Bool
  | .nil => true
  | .cons n l => bareFreeN inImg inLink n && bareFreeL inImg inLink l

end

/-- No pass of the pipeline finds anything to rewrite in the document. -/
def quietDoc (doc : NodeList) : Bool :=
  mentionFreeL doc && profileFreeL doc && imageFreeL doc &&
    bareFreeL false false doc && linkFreeL doc

/-! ## Concrete fixtures used by witnesses and counterexamples -/

/-- A resolver whose calls always raise. -/
def cErr : ConfluenceClient :=
  ⟨fun _ => .error (), fun _ => .error ()⟩

/-- A resolver that finds display names. -/
def cAlice : ConfluenceClient :=
  ⟨fun _ => .ok (some "Alice"), fun _ => .ok (some "Uma")⟩

/-- A document whose only element is a link macro wrapping both a user
reference with an account id and an attachment reference. -/
def doc6 : NodeList :=
  .cons (.elem "ac:link" []
    (.cons (.elem "ri:user" [("ri:account-id","u1")] .nil)
      (.cons (.elem "ri:attachment" [("ri:filename","f.pdf")] .nil) .nil))) .nil

/-- A link macro wrapping an image macro (which hides the link's first
`ri:user`) plus a second user reference carrying an account id. -/
def doc8 : NodeList :=
  .cons (.elem "ac:link" []
    (.cons (.elem "ac:image" []
      (.cons (.elem "ri:attachment" [("ri:filename","f.png")] .nil)
        (.cons (.elem "ri:user" [] .nil) .nil)))
      (.cons (.elem "ri:user" [("ri:account-id","x")] .nil) .nil))) .nil

/-- A `title` parameter with no content, so its text is empty. -/
def emptyTitleParam : Node := .elem "ac:parameter" [("ac:name","title")] .nil

/-- Children of an image macro whose first matching parameter (`title`)
has empty text. -/
def ksImgEmptyTitle : NodeList :=
  .cons (.elem "ri:attachment" [("ri:filename","d.png")] .nil)
    (.cons emptyTitleParam .nil)

/-- An image macro whose first matching parameter (`title`) has empty
text. -/
def imgEmptyTitle : Node := .elem "ac:image" [] ksImgEmptyTitle

/-- A well-formed `ri:user` reference with an account id. -/
def uP : Node := .elem "ri:user" [("ri:account-id","id1")] .nil

/-- A `user` parameter wrapping `uP`. -/
def upP : Node := .elem "ac:parameter" [("ac:name","user")] (.cons uP .nil)

/-- Children of a well-formed profile macro. -/
def ksP : NodeList := .cons upP .nil

/-- A well-formed image macro with one attachment and no parameters. -/
def nodeImg : Node :=
  .elem "ac:image" []
    (.cons (.elem "ri:attachment" [("ri:filename","x.png")] .nil) .nil)

/-- A document holding only `nodeImg`. -/
def docImgOnly : NodeList := .cons nodeImg .nil

/-- A document with no rewritable macro occurrence. -/
def docQuiet : NodeList :=
  .cons (.elem "p" [] (.cons (.text "hi") .nil)) .nil

/-! ## Pass identity lemmas -/

mutual

theorem mentionFree_fix_node (cl : Option ConfluenceClient) :
    ∀ n : Node, mentionFreeN n = true → mentionNode cl n = n
  | .text _, _ => rfl
  | .elem t a ks, h => by
    unfold mentionFreeN at h
    rw [Bool.and_eq_true] at h
    have hks := mentionFree_fix_list cl ks h.2
    unfold mentionNode
    rw [hks]
    rcases ht : (t == "ac:link") with _ | _
    · simp [ht]
    · have hsel : mentionSel ks = none := by
        have := h.1
        rw [ht] at this
        simp at this
        exact Option.not_isSome_iff_eq_none.mp (by simp [this])
      simp [ht, hsel]

theorem mentionFree_fix_list (cl : Option ConfluenceClient) :
    ∀ l : NodeList, mentionFreeL l = true → mentionList cl l = l
  | .nil, _ => rfl
  | .cons n l, h => by
    unfold mentionFreeL at h
    rw [Bool.and_eq_true] at h
    unfold mentionList
    rw [mentionFree_fix_node cl n h.1, mentionFree_fix_list cl l h.2]

end

mutual

theorem profileFree_fix_node (cl : Option ConfluenceClient) :
    ∀ n : Node, profileFreeN n = true → profileNode cl n = n
  | .text _, _ => rfl
  | .elem t a ks, h => by
    unfold profileFreeN at h
    rw [Bool.and_eq_true] at h
    have hks := profileFree_fix_list cl ks h.2
    unfold profileNode
    rw [hks]
    have := h.1
    rcases hc : (t == "ac:structured-macro" && (getAttr a "ac:name" == some "profile")) with _ | _
    · simp [hc]
    · rw [hc] at this
      simp at this

theorem profileFree_fix_list (cl : Option ConfluenceClient) :
    ∀ l : NodeList, profileFreeL l = true → profileList cl l = l
  | .nil, _ => rfl
  | .cons n l, h => by
    unfold profileFreeL at h
    rw [Bool.and_eq_true] at h
    unfold profileList
    rw [profileFree_fix_node cl n h.1, profileFree_fix_list cl l h.2]

end

mutual

theorem imageFree_fix_node (pid base : String) :
    ∀ n : Node, imageFreeN n = true → imageNode pid base n = n
  | .text _, _ => rfl
  | .elem t a ks, h => by
    unfold imageFreeN at h
    rw [Bool.and_eq_true] at h
    have hks := imageFree_fix_list pid base ks h.2
    unfold imageNode
    rw [hks]
    rcases ht : (t == "ac:image") with _ | _
    · simp [ht]
    · have hsel : firstAttachmentFilename ks = none := by
        have := h.1
        rw [ht] at this
        simp at this
        exact Option.not_isSome_iff_eq_none.mp (by simp [this])
      simp [ht, hsel]

theorem imageFree_fix_list (pid base : String) :
    ∀ l : NodeList, imageFreeL l = true → imageList pid base l = l
  | .nil, _ => rfl
  | .cons n l, h => by
    unfold imageFreeL at h
    rw [Bool.and_eq_true] at h
    unfold imageList
    rw [imageFree_fix_node pid base n h.1, imageFree_fix_list pid base l h.2]

end

mutual

theorem linkFree_fix_node (pid base : String) :
    ∀ n : Node, linkFreeN n = true → linkNode pid base n = n
  | .text _, _ => rfl
  | .elem t a ks, h => by
    unfold linkFreeN at h
    rw [Bool.and_eq_true] at h
    have hks := linkFree_fix_list pid base ks h.2
    unfold linkNode
    rw [hks]
    rcases ht : (t == "ac:link") with _ | _
    · simp [ht]
    · have hsel : firstAttachmentFilename ks = none := by
        have := h.1
        rw [ht] at this
        simp at this
        exact Option.not_isSome_iff_eq_none.mp (by simp [this])
      simp [ht, hsel]

theorem linkFree_fix_list (pid base : String) :
    ∀ l : NodeList, linkFreeL l = true → linkList pid base l = l
  | .nil, _ => rfl
  | .cons n l, h => by
    unfold linkFreeL at h
    rw [Bool.and_eq_true] at h
    unfold linkList
    rw [linkFree_fix_node pid base n h.1, linkFree_fix_list pid base l h.2]

end

mutual

theorem bareFree_fix_node (pid base : String) :
    ∀ (bI bL : Bool) (n : Node), bareFreeN bI bL n = true →
      bareNode pid base bI bL n = n
  | _, _, .text _, _ => rfl
  | bI, bL, .elem t a ks, h => by
    unfold bareFreeN at h
    rw [Bool.and_eq_true] at h
    have hks := bareFree_fix_list pid base _ _ ks h.2
    have h1 := h.1
    have hc : (t == "ri:attachment" && pyTruthyO (getAttr a "ri:filename") &&
        !bI && !bL) = false := by
      cases hco : (t == "ri:attachment" && pyTruthyO (getAttr a "ri:filename") &&
        !bI && !bL)
      · rfl
      · rw [hco] at h1
        simp at h1
    unfold bareNode
    simp [hc, hks]

theorem bareFree_fix_list (pid base : String) :
    ∀ (bI bL : Bool) (l : NodeList), bareFreeL bI bL l = true →
      bareList pid base bI bL l = l
  | _, _, .nil, _ => rfl
  | bI, bL, .cons n l, h => by
    unfold bareFreeL at h
    rw [Bool.and_eq_true] at h
    unfold bareList
    rw [bareFree_fix_node pid base bI bL n h.1, bareFree_fix_list pid base bI bL l h.2]

end

mutual

theorem bareFlag_fix_node (pid base : String) :
    ∀ (bI bL : Bool), (bI || bL) = true → ∀ n : Node,
      bareNode pid base bI bL n = n
  | bI, bL, hb, .text _ => rfl
  | bI, bL, hb, .elem t a ks => by
    have hks := bareFlag_fix_list pid base (bI || t == "ac:image")
      (bL || t == "ac:link") (by rcases Bool.or_eq_true_iff.mp hb with h | h <;> simp [h]) ks
    have hc : (t == "ri:attachment" && pyTruthyO (getAttr a "ri:filename") &&
        !bI && !bL) = false := by
      rcases Bool.or_eq_true_iff.mp hb with h | h <;> simp [h]
    unfold bareNode
    simp [hc, hks]

theorem bareFlag_fix_list (pid base : String) :
    ∀ (bI bL : Bool), (bI || bL) = true → ∀ l : NodeList,
      bareList pid base bI bL l = l
  | bI, bL, hb, .nil => rfl
  | bI, bL, hb, .cons n l => by
    unfold bareList
    rw [bareFlag_fix_node pid base bI bL hb n, bareFlag_fix_list pid base bI bL hb l]

end

/-! ## Helper lemmas for the claims -/

theorem altLoop_eq_find (ps : List Node) :
    altLoop ps = ((ps.find? nameMatches).map textOfStrip).getD "" := by
  induction ps with
  | nil => rfl
  | cons p rest ih =>
    unfold altLoop
    rcases hp : nameMatches p with _ | _
    · rw [List.find?_cons_of_neg _ (by simp [hp])]
      simp [hp, ih]
    · rw [List.find?_cons_of_pos _ hp]
      simp [hp]

theorem isSafeByte_false_of_large (b : Nat) (h : 127 ≤ b) :
    isSafeByte b = false := by
  unfold isSafeByte
  simp only [Bool.or_eq_false_iff, Bool.and_eq_false_iff]
  refine ⟨⟨⟨⟨⟨⟨⟨?_, ?_⟩, ?_⟩, ?_⟩, ?_⟩, ?_⟩, ?_⟩, ?_⟩ <;>
    simp <;> omega

theorem pyQuoteChar_head_of_nonAscii (c : Char) (h : 127 < c.toNat) :
    (pyQuoteChar c).head? = some '%' := by
  unfold pyQuoteChar utf8Bytes
  have h128 : ¬ c.toNat < 128 := by omega
  simp only [h128, if_false]
  split
  · rw [List.flatMap_cons]
    rw [quoteByte, isSafeByte_false_of_large _ (by omega)]
    simp
  · split
    · rw [List.flatMap_cons]
      rw [quoteByte, isSafeByte_false_of_large _ (by omega)]
      simp
    · rw [List.flatMap_cons]
      rw [quoteByte, isSafeByte_false_of_large _ (by omega)]
      simp

theorem head_dropWhile_false {p : Char → Bool} {l : List Char} {c : Char}
    (h : (l.dropWhile p).head? = some c) : p c = false := by
  have := (List.find?_not_eq_head?_dropWhile p l).trans h
  have := List.find?_some this
  simpa using this

theorem rstripSlashes_split (s : String) :
    s.data = (rstripSlashes s).data ++
      List.replicate (s.data.reverse.takeWhile (· == '/')).length '/' ∧
    (((rstripSlashes s).data.getLast? == some '/') = false) := by
  constructor
  · conv_lhs => rw [← s.data.reverse_reverse]
    conv_lhs =>
      rw [← List.takeWhile_append_dropWhile (p := (· == '/')) (l := s.data.reverse)]
    rw [List.reverse_append]
    unfold rstripSlashes
    congr 1
    have : ∀ x ∈ s.data.reverse.takeWhile (· == '/'), x = '/' := by
      intro x hx
      have := List.mem_takeWhile_imp hx
      simpa using this
    rw [List.eq_replicate_of_mem this]
    simp
  · unfold rstripSlashes
    rcases hh : (s.data.reverse.dropWhile (· == '/')).head? with _ | c
    · simp [List.getLast?_reverse, hh]
    · have := head_dropWhile_false hh
      simp [List.getLast?_reverse, hh]
      simpa using this

/-! ## The claims -/

/-- Claim C1: for every profile macro node the rewrite follows the
ordered policy: no `user` parameter, or a `user` parameter wrapping no
user reference, gives the malformed placeholder regardless of resolver
presence; on a well-formed reference a truthy account id is resolved by
`resolve_by_account_id`, else a truthy legacy userkey by
`resolve_by_username`; success with a non-empty display name gives
`@<display_name>`; a raising call, an absent resolver, or a missing or
empty display name gives `[User Profile: <identifier>]` with the
identifier being the account id if truthy, else the userkey if truthy,
else the literal `unknown_user`. -/
theorem claim1_profile_policy (cl : Option ConfluenceClient)
    (a : List (String × String)) (ks : NodeList) :
    (getAttr a "ac:name" = some "profile" →
      profileNode cl (.elem "ac:structured-macro" a ks) =
        .text (profileRewriteText cl ks)) ∧
    (findTagAttrL "ac:parameter" "ac:name" "user" ks = none →
      profileRewriteText cl ks = "[User Profile Macro (Malformed)]") ∧
    (∀ up, findTagAttrL "ac:parameter" "ac:name" "user" ks = some up →
      findTagN "ri:user" up = none →
      profileRewriteText cl ks = "[User Profile Macro (Malformed)]") ∧
    (∀ up u aid c d, findTagAttrL "ac:parameter" "ac:name" "user" ks = some up →
      findTagN "ri:user" up = some u →
      getAttr (attrsOf u) "ri:account-id" = some aid → aid ≠ "" →
      cl = some c → c.get_user_details_by_accountid aid = .ok (some d) → d ≠ "" →
      profileRewriteText cl ks = "@" ++ d) ∧
    (∀ up u aid c, findTagAttrL "ac:parameter" "ac:name" "user" ks = some up →
      findTagN "ri:user" up = some u →
      getAttr (attrsOf u) "ri:account-id" = some aid → aid ≠ "" →
      cl = some c →
      (c.get_user_details_by_accountid aid = .error () ∨
       c.get_user_details_by_accountid aid = .ok none ∨
       c.get_user_details_by_accountid aid = .ok (some "")) →
      profileRewriteText cl ks = "[User Profile: " ++ aid ++ "]") ∧
    (∀ up u aid, findTagAttrL "ac:parameter" "ac:name" "user" ks = some up →
      findTagN "ri:user" up = some u →
      getAttr (attrsOf u) "ri:account-id" = some aid → aid ≠ "" →
      cl = none →
      profileRewriteText cl ks = "[User Profile: " ++ aid ++ "]") ∧
    (∀ up u k c d, findTagAttrL "ac:parameter" "ac:name" "user" ks = some up →
      findTagN "ri:user" up = some u →
      pyTruthyO (getAttr (attrsOf u) "ri:account-id") = false →
      getAttr (attrsOf u) "ri:userkey" = some k → k ≠ "" →
      cl = some c → c.get_user_details_by_username k = .ok (some d) → d ≠ "" →
      profileRewriteText cl ks = "@" ++ d) ∧
    (∀ up u k c, findTagAttrL "ac:parameter" "ac:name" "user" ks = some up →
      findTagN "ri:user" up = some u →
      pyTruthyO (getAttr (attrsOf u) "ri:account-id") = false →
      getAttr (attrsOf u) "ri:userkey" = some k → k ≠ "" →
      cl = some c →
      (c.get_user_details_by_username k = .error () ∨
       c.get_user_details_by_username k = .ok none ∨
       c.get_user_details_by_username k = .ok (some "")) →
      profileRewriteText cl ks = "[User Profile: " ++ k ++ "]") ∧
    (∀ up u k, findTagAttrL "ac:parameter" "ac:name" "user" ks = some up →
      findTagN "ri:user" up = some u →
      pyTruthyO (getAttr (attrsOf u) "ri:account-id") = false →
      getAttr (attrsOf u) "ri:userkey" = some k → k ≠ "" →
      cl = none →
      profileRewriteText cl ks = "[User Profile: " ++ k ++ "]") ∧
    (∀ up u, findTagAttrL "ac:parameter" "ac:name" "user" ks = some up →
      findTagN "ri:user" up = some u →
      pyTruthyO (getAttr (attrsOf u) "ri:account-id") = false →
      pyTruthyO (getAttr (attrsOf u) "ri:userkey") = false →
      profileRewriteText cl ks = "[User Profile: unknown_user]") := by
  refine ⟨?_, ?_, ?_, ?_, ?_, ?_, ?_, ?_, ?_, ?_⟩
  · intro hname
    unfold profileNode
    simp [hname]
  · intro hup
    unfold profileRewriteText
    rw [hup]
  · intro up hup hu
    unfold profileRewriteText
    simp only [hup, hu]
  · intro up u aid c d hup hu hacc haid hcl hcall hd
    subst hcl
    have hbe : (aid == "") = false := beq_eq_false_iff_ne.mpr haid
    have hde : (d == "") = false := beq_eq_false_iff_ne.mpr hd
    unfold profileRewriteText
    simp only [hup, hu, hacc]
    simp [pyOrO, pyTruthyO, hbe, hcall, hde]
  · intro up u aid c hup hu hacc haid hcl hfail
    subst hcl
    have hbe : (aid == "") = false := beq_eq_false_iff_ne.mpr haid
    unfold profileRewriteText
    simp only [hup, hu, hacc]
    rcases hfail with h | h | h <;> simp [pyOrO, pyTruthyO, hbe, h]
  · intro up u aid hup hu hacc haid hcl
    subst hcl
    have hbe : (aid == "") = false := beq_eq_false_iff_ne.mpr haid
    unfold profileRewriteText
    simp only [hup, hu, hacc]
    simp [pyOrO, pyTruthyO, hbe]
  · intro up u k c d hup hu hacc hkey hk hcl hcall hd
    subst hcl
    have hbe : (k == "") = false := beq_eq_false_iff_ne.mpr hk
    have hde : (d == "") = false := beq_eq_false_iff_ne.mpr hd
    unfold profileRewriteText
    rcases hao : getAttr (attrsOf u) "ri:account-id" with _ | v
    · simp only [hup, hu, hkey, hao]
      simp [pyOrO, pyTruthyO, hbe, hcall, hde]
    · rw [hao] at hacc
      have hv : v = "" := by simpa [pyTruthyO] using hacc
      subst hv
      simp only [hup, hu, hkey, hao]
      simp [pyOrO, pyTruthyO, hbe, hcall, hde]
  · intro up u k c hup hu hacc hkey hk hcl hfail
    subst hcl
    have hbe : (k == "") = false := beq_eq_false_iff_ne.mpr hk
    unfold profileRewriteText
    rcases hao : getAttr (attrsOf u) "ri:account-id" with _ | v
    · simp only [hup, hu, hkey, hao]
      rcases hfail with h | h | h <;> simp [pyOrO, pyTruthyO, hbe, h]
    · rw [hao] at hacc
      have hv : v = "" := by simpa [pyTruthyO] using hacc
      subst hv
      simp only [hup, hu, hkey, hao]
      rcases hfail with h | h | h <;> simp [pyOrO, pyTruthyO, hbe, h]
  · intro up u k hup hu hacc hkey hk hcl
    subst hcl
    have hbe : (k == "") = false := beq_eq_false_iff_ne.mpr hk
    unfold profileRewriteText
    rcases hao : getAttr (attrsOf u) "ri:account-id" with _ | v
    · simp only [hup, hu, hkey, hao]
      simp [pyOrO, pyTruthyO, hbe]
    · rw [hao] at hacc
      have hv : v = "" := by simpa [pyTruthyO] using hacc
      subst hv
      simp only [hup, hu, hkey, hao]
      simp [pyOrO, pyTruthyO, hbe]
  · intro up u hup hu hacc hkey
    unfold profileRewriteText
    rcases hao : getAttr (attrsOf u) "ri:account-id" with _ | v <;>
      rcases hko : getAttr (attrsOf u) "ri:userkey" with _ | w
    · simp only [hup, hu, hao, hko]
      rcases cl with _ | c <;> simp [pyOrO, pyTruthyO]
    · rw [hko] at hkey
      have hw : w = "" := by simpa [pyTruthyO] using hkey
      subst hw
      simp only [hup, hu, hao, hko]
      rcases cl with _ | c <;> simp [pyOrO, pyTruthyO]
    · rw [hao] at hacc
      have hv : v = "" := by simpa [pyTruthyO] using hacc
      subst hv
      simp only [hup, hu, hao, hko]
      rcases cl with _ | c <;> simp [pyOrO, pyTruthyO]
    · rw [hao] at hacc
      have hv : v = "" := by simpa [pyTruthyO] using hacc
      subst hv
      rw [hko] at hkey
      have hw : w = "" := by simpa [pyTruthyO] using hkey
      subst hw
      simp only [hup, hu, hao, hko]
      rcases cl with _ | c <;> simp [pyOrO, pyTruthyO]

/-- Witness for C1: a well-formed profile macro resolved by a working
client becomes an `@`-mention. -/
theorem claim1_profile_policy_witness :
    profileRewriteText (some cAlice) ksP = "@Alice" :=
  (claim1_profile_policy (some cAlice) [] ksP).2.2.2.1 upP uP "id1" cAlice "Alice"
    rfl rfl rfl (by decide) rfl rfl (by decide)

/-- Claim C2: for every matched user-mention link node with an
extractable account id, the whole link node becomes the text
`@<display_name>` when a resolver call succeeds with a non-empty display
name; an absent resolver, a raising call, and a missing or empty display
name all identically yield the text `@user_<account_id>`. -/
theorem claim2_user_mention (cl : Option ConfluenceClient)
    (a : List (String × String)) (ks : NodeList) (aid : String) :
    (mentionSel ks = some aid →
      mentionNode cl (.elem "ac:link" a ks) =
        .text (replaceUserMentionText cl aid)) ∧
    (cl = none → replaceUserMentionText cl aid = "@user_" ++ aid) ∧
    (∀ c, cl = some c →
      (c.get_user_details_by_accountid aid = .error () ∨
       c.get_user_details_by_accountid aid = .ok none ∨
       c.get_user_details_by_accountid aid = .ok (some "")) →
      replaceUserMentionText cl aid = "@user_" ++ aid) ∧
    (∀ c d, cl = some c → c.get_user_details_by_accountid aid = .ok (some d) →
      d ≠ "" → replaceUserMentionText cl aid = "@" ++ d) := by
  refine ⟨?_, ?_, ?_, ?_⟩
  · intro h
    unfold mentionNode
    simp [h]
  · intro h
    subst h
    rfl
  · intro c hcl hfail
    subst hcl
    unfold replaceUserMentionText
    rcases hfail with h | h | h <;> simp [h]
  · intro c d hcl hcall hd
    subst hcl
    unfold replaceUserMentionText
    simp [hcall, hd]

/-- Witness for C2: without a resolver a matched mention link becomes
the fallback text. -/
theorem claim2_user_mention_witness :
    mentionNode none
      (.elem "ac:link" []
        (.cons (.elem "ri:user" [("ri:account-id","u1")] .nil) .nil)) =
      .text "@user_u1" := by
  have h := claim2_user_mention none []
    (.cons (.elem "ri:user" [("ri:account-id","u1")] .nil) .nil) "u1"
  rw [h.1 rfl, h.2.1 rfl]
  rfl

/-- Claim C3: the pipeline fails exactly when the top-level parse,
serialize or Markdown-conversion step fails; the macro rewriting in
between is total (resolver failures are absorbed into per-macro
fallbacks), so on success the caller receives the fully processed pair. -/
theorem claim3_pipeline_error_iff
    (parse : String → Except String NodeList)
    (render : NodeList → Except String String)
    (toMarkdown : String → Except String String)
    (cl : Option ConfluenceClient) (page_id : Option String)
    (flag : Bool) (base_url html : String) :
    ((∃ e, process_html_content parse render toMarkdown cl page_id flag
        base_url html = .error e) ↔
      ((∃ e, parse html = .error e) ∨
       (∃ doc e, parse html = .ok doc ∧
          render (processSoup cl page_id flag base_url doc) = .error e) ∨
       (∃ doc h e, parse html = .ok doc ∧
          render (processSoup cl page_id flag base_url doc) = .ok h ∧
          toMarkdown h = .error e))) ∧
    (∀ doc h m, parse html = .ok doc →
      render (processSoup cl page_id flag base_url doc) = .ok h →
      toMarkdown h = .ok m →
      process_html_content parse render toMarkdown cl page_id flag
        base_url html = .ok (h, m)) := by
  constructor
  · unfold process_html_content
    rcases hp : parse html with e | doc
    · simp [hp]
    · rcases hr : render (processSoup cl page_id flag base_url doc) with e | h
      · simp [hp, hr]
      · rcases hm : toMarkdown h with e | m
        · simp [hp, hr, hm]
        · simp [hp, hr, hm]
  · intro doc h m hp hr hm
    unfold process_html_content
    simp [hp, hr, hm]

/-- Witness for C3: with succeeding collaborators the pipeline returns
the processed pair. -/
theorem claim3_pipeline_error_iff_witness :
    process_html_content (fun s => .ok (.cons (.text s) .nil))
      (fun _ => .ok "html") (fun _ => .ok "md") none none false "" "x" =
      .ok ("html", "md") :=
  (claim3_pipeline_error_iff (fun s => .ok (.cons (.text s) .nil))
      (fun _ => .ok "html") (fun _ => .ok "md") none none false "" "x").2
    (.cons (.text "x") .nil) "html" "md" rfl rfl rfl

/-- Claim C4: the download URL builder returns exactly
`<base>/download/attachments/<content_id>/<percent-encoded filename>`,
where the percent-encoding escapes spaces, `#`, `?` and non-ASCII
characters (uppercase hex, UTF-8 bytes) and leaves `/ . - _` (and the
other unreserved characters) intact. -/
theorem claim4_download_url (base_url page_id filename : String) :
    construct_attachment_download_url base_url page_id filename =
      base_url ++ "/download/attachments/" ++ page_id ++ "/" ++
        pyQuote filename ∧
    pyQuote "data export.csv" = "data%20export.csv" ∧
    pyQuote "a#b?c" = "a%23b%3Fc" ∧
    pyQuote "/.-_~AZaz09" = "/.-_~AZaz09" ∧
    pyQuote (String.mk [Char.ofNat 233]) = "%C3%A9" ∧
    (∀ c : Char, 127 < c.toNat → (pyQuoteChar c).head? = some '%') := by
  refine ⟨rfl, by decide, by decide, by decide, by decide, ?_⟩
  intro c h
  exact pyQuoteChar_head_of_nonAscii c h

/-- Witness for C4: the non-ASCII clause at a concrete character. -/
theorem claim4_download_url_witness :
    (pyQuoteChar (Char.ofNat 233)).head? = some '%' :=
  (claim4_download_url "https://h" "12345" "x").2.2.2.2.2 (Char.ofNat 233)
    (by decide)

/-- Counterexample to claim C5 as stated: in this image macro the first
parameter named `alt`/`title`/`caption` exists and its text is empty,
yet the produced `alt` is the filename `d.png`, not that (empty) text. -/
theorem claim5_counterexample :
    imageNode "12345" "https://h" imgEmptyTitle =
      .elem "img"
        [("src", "https://h/download/attachments/12345/d.png"),
         ("alt", "d.png")] .nil ∧
    (findAllTagL "ac:parameter" ksImgEmptyTitle).find? nameMatches =
      some emptyTitleParam ∧
    textOfStrip emptyTitleParam = "" ∧
    ¬ ("d.png" = "") := by
  refine ⟨rfl, rfl, by decide, by decide⟩

/-- Claim C5 (amended): a matched image macro becomes a standard image
node whose `src` is the download URL and whose `alt` is the text of the
first parameter named `alt`, `title` or `caption` in document order when
that text is non-empty; when no such parameter exists or its text is
empty, the `alt` defaults to the filename. -/
theorem claim5_image_alt (page_id base_url : String)
    (a : List (String × String)) (ks : NodeList) (fn : String)
    (h : firstAttachmentFilename ks = some fn) :
    imageNode page_id base_url (.elem "ac:image" a ks) =
      .elem "img"
        [("src", construct_attachment_download_url base_url page_id fn),
         ("alt",
           match (findAllTagL "ac:parameter" ks).find? nameMatches with
           | some p => if textOfStrip p = "" then fn else textOfStrip p
           | none => fn)] .nil := by
  unfold imageNode
  simp only [h]
  have htag : ("ac:image" == "ac:image") = true := by decide
  simp only [htag, if_true]
  unfold mkImg
  rw [altLoop_eq_find]
  rcases hf : (findAllTagL "ac:parameter" ks).find? nameMatches with _ | p
  · simp
  · simp only [Option.map_some, Option.getD_some]
    by_cases h0 : textOfStrip p = "" <;> simp [h0]

/-- Witness for C5: the spec's own example, a macro with filename
`diagram.png` and no parameters. -/
theorem claim5_image_alt_witness :
    imageNode "12345" "https://h"
      (.elem "ac:image" []
        (.cons (.elem "ri:attachment" [("ri:filename","diagram.png")] .nil)
          .nil)) =
      .elem "img"
        [("src", "https://h/download/attachments/12345/diagram.png"),
         ("alt", "diagram.png")] .nil := by
  have h := claim5_image_alt "12345" "https://h" []
    (.cons (.elem "ri:attachment" [("ri:filename","diagram.png")] .nil) .nil)
    "diagram.png" rfl
  simpa using h

/-- Counterexample to claim C9 as stated: stripping is not limited to a
single trailing slash — `https://h//` is stored as `https://h`, not
`https://h/`. -/
theorem claim9_counterexample :
    basePreprocessorInit "https://h//" = "https://h" ∧
    ¬ basePreprocessorInit "https://h//" = "https://h/" := by
  refine ⟨by decide, by decide⟩

/-- Claim C9 (amended): construction strips every trailing slash and
does nothing else: the input is the stored base followed by some number
of slashes, and the stored base has no trailing slash. -/
theorem claim9_base_url_strip (s : String) :
    (∃ k, s.data = (basePreprocessorInit s).data ++ List.replicate k '/') ∧
    (((basePreprocessorInit s).data.getLast? == some '/') = false) := by
  unfold basePreprocessorInit
  by_cases hs : s = ""
  · subst hs
    exact ⟨⟨0, by decide⟩, by decide⟩
  · rw [if_pos hs]
    exact ⟨⟨_, (rstripSlashes_split s).1⟩, (rstripSlashes_split s).2⟩

/-- Counterexample to claim C6 as stated: with
`preserve_inline_attachments = False` (and a client and page id
supplied), the user-mention pass still rewrites a link macro that wraps
both a user reference and an attachment reference, so link-wrapped
attachment markup is altered by `process`. -/
theorem claim6_counterexample :
    (findAllTagL "ri:attachment" doc6).length = 1 ∧
    processSoup (some cErr) (some "99") false "https://h" doc6 =
      .cons (.text "@user_u1") .nil ∧
    (findAllTagL "ri:attachment"
      (processSoup (some cErr) (some "99") false "https://h" doc6)).length
      = 0 := by
  refine ⟨by decide, rfl, by decide⟩

/-- Claim C6 (amended): when the flag is off, the client is absent or
the page id is untruthy, none of the three attachment passes runs — the
pipeline is exactly the mention pass followed by the profile pass — so a
document with no rewritable mention link and no profile macro is
returned unaltered; attachment markup can then change only by being
nested inside a node the identity passes rewrite. -/
theorem claim6_gate_off (cl : Option ConfluenceClient)
    (page_id : Option String) (flag : Bool) (base_url : String)
    (doc : NodeList)
    (h : flag = false ∨ cl = none ∨ pyTruthyO page_id = false) :
    processSoup cl page_id flag base_url doc =
      profileList cl (mentionList cl doc) ∧
    (mentionFreeL doc = true → profileFreeL doc = true →
      processSoup cl page_id flag base_url doc = doc) := by
  have hcond : (flag && cl.isSome && pyTruthyO page_id) = false := by
    rcases h with h | h | h <;> simp [h]
  constructor
  · unfold processSoup
    simp [hcond]
  · intro hm hp
    unfold processSoup
    simp only [hcond, Bool.false_eq_true, if_false]
    rw [mentionFree_fix_list cl doc hm, profileFree_fix_list cl doc hp]

/-- Witness for C6: with the flag off, a document holding an image macro
with a resolvable attachment is returned unaltered. -/
theorem claim6_gate_off_witness :
    processSoup (some cErr) (some "99") false "https://h" docImgOnly =
      docImgOnly :=
  (claim6_gate_off (some cErr) (some "99") false "https://h" docImgOnly
      (Or.inl rfl)).2 (by decide) (by decide)

/-- Claim C7: the bare-reference pass never touches anything below an
`ac:image` or `ac:link` ancestor (the `find_parent` guards), and an
attachment reference inside a matched image macro is rewritten exactly
once: the image pass replaces the whole macro by an `<img>` on which the
bare-reference pass is the identity. -/
theorem claim7_bare_pass_nesting (page_id base_url : String) :
    (∀ (bL : Bool) (n : Node), bareNode page_id base_url true bL n = n) ∧
    (∀ (bI : Bool) (n : Node), bareNode page_id base_url bI true n = n) ∧
    (∀ (bI bL : Bool) (a : List (String × String)) (ks : NodeList),
      bareNode page_id base_url bI bL (.elem "ac:image" a ks) =
        .elem "ac:image" a ks ∧
      bareNode page_id base_url bI bL (.elem "ac:link" a ks) =
        .elem "ac:link" a ks) ∧
    (∀ (a : List (String × String)) (ks : NodeList) (fn : String),
      firstAttachmentFilename ks = some fn →
      ∀ (bI bL : Bool),
        bareNode page_id base_url bI bL
          (imageNode page_id base_url (.elem "ac:image" a ks)) =
          imageNode page_id base_url (.elem "ac:image" a ks)) := by
  refine ⟨?_, ?_, ?_, ?_⟩
  · intro bL n
    exact bareFlag_fix_node page_id base_url true bL (by simp) n
  · intro bI n
    exact bareFlag_fix_node page_id base_url bI true (by simp) n
  · intro bI bL a ks
    constructor
    · have hks := bareFlag_fix_list page_id base_url true bL (by simp) ks
      unfold bareNode
      simp [hks]
    · have hks := bareFlag_fix_list page_id base_url bI true (by simp) ks
      unfold bareNode
      simp [hks]
  · intro a ks fn h bI bL
    unfold imageNode
    simp only [h]
    have htag : ("ac:image" == "ac:image") = true := by decide
    simp only [htag, if_true]
    unfold mkImg
    by_cases h0 : altLoop (findAllTagL "ac:parameter" ks) = "" <;>
      simp [h0, bareNode, bareList]

/-- Witness for C7: the bare pass is the identity on the image pass's
output for a concrete matched image macro. -/
theorem claim7_bare_pass_nesting_witness :
    bareNode "12345" "https://h" false false
      (imageNode "12345" "https://h" nodeImg) =
      imageNode "12345" "https://h" nodeImg :=
  (claim7_bare_pass_nesting "12345" "https://h").2.2.2 []
    (.cons (.elem "ri:attachment" [("ri:filename","x.png")] .nil) .nil)
    "x.png" rfl false false

/-- Counterexample to claim C8 as stated: the pipeline is not idempotent
on this document — the first run's image pass removes the `ri:user` that
hid the link's account-id-bearing user reference, so the second run
rewrites the surviving `ac:link` as a user mention. -/
theorem claim8_counterexample :
    processSoup (some cErr) (some "1") true "https://h" doc8 =
      .cons (.elem "ac:link" []
        (.cons (.elem "img"
          [("src","https://h/download/attachments/1/f.png"),
           ("alt","f.png")] .nil)
          (.cons (.elem "ri:user" [("ri:account-id","x")] .nil) .nil))) .nil ∧
    processSoup (some cErr) (some "1") true "https://h"
      (processSoup (some cErr) (some "1") true "https://h" doc8) =
      .cons (.text "@user_x") .nil ∧
    ¬ (processSoup (some cErr) (some "1") true "https://h"
        (processSoup (some cErr) (some "1") true "https://h" doc8) =
       processSoup (some cErr) (some "1") true "https://h" doc8) := by
  refine ⟨rfl, rfl, ?_⟩
  intro hEq
  exact absurd (congrArg (fun l => (findAllTagL "ac:link" l).length) hEq)
    (by decide)

/-- Claim C8 (amended): a run of the rewrite pipeline changes nothing on
a document in which no rewritable macro occurrence remains; a first run
does not guarantee that state, so a second run may still make changes. -/
theorem claim8_quiet_fixpoint (cl : Option ConfluenceClient)
    (page_id : Option String) (flag : Bool) (base_url : String)
    (doc : NodeList) (h : quietDoc doc = true) :
    processSoup cl page_id flag base_url doc = doc := by
  unfold quietDoc at h
  simp only [Bool.and_eq_true] at h
  obtain ⟨⟨⟨⟨hm, hp⟩, hi⟩, hb⟩, hl⟩ := h
  unfold processSoup
  rw [mentionFree_fix_list cl doc hm, profileFree_fix_list cl doc hp]
  rcases hg : (flag && cl.isSome && pyTruthyO page_id) with _ | _
  · simp [hg]
  · simp only [hg, if_true]
    rw [imageFree_fix_list _ _ doc hi, bareFree_fix_list _ _ _ _ doc hb,
      linkFree_fix_list _ _ doc hl]

/-- Witness for C8: a document with no rewritable macro occurrence is a
fixpoint of the pipeline. -/
theorem claim8_quiet_fixpoint_witness :
    processSoup (some cErr) (some "1") true "https://h" docQuiet =
      docQuiet :=
  claim8_quiet_fixpoint (some cErr) (some "1") true "https://h" docQuiet
    (by decide)

/-- Claim C10: the Confluence entry point defaults the omitted
`preserve_inline_attachments` argument to the constructor's setting, an
explicit boolean overrides it, and in both cases the result is the base
pipeline run with that effective flag. -/
theorem claim10_confluence_flag (p : ConfluencePreprocessorS)
    (parse : String → Except String NodeList)
    (render : NodeList → Except String String)
    (toMarkdown : String → Except String String)
    (cl : Option ConfluenceClient) (page_id : Option String)
    (html : String) :
    (confluenceProcessHtmlContent p parse render toMarkdown cl page_id
        none html =
      process_html_content parse render toMarkdown cl page_id
        p.preserve_inline_attachments p.base_url html) ∧
    (∀ b, confluenceProcessHtmlContent p parse render toMarkdown cl page_id
        (some b) html =
      process_html_content parse render toMarkdown cl page_id
        b p.base_url html) ∧
    (∀ burl flag ph pp pbp,
      (mkConfluencePreprocessor burl flag ph pp pbp).preserve_inline_attachments
        = flag ∧
      (mkConfluencePreprocessor burl flag ph pp pbp).base_url =
        basePreprocessorInit burl) :=
  ⟨rfl, fun _ => rfl, fun _ _ _ _ _ => ⟨rfl, rfl⟩⟩
